import Mathlib

/-!
Verification of the HTML knowledge-graph generator (main.py / script.py).

The development shallowly embeds the pure logic of the two scripts:
  * `normalizePath` embeds `KnowledgeGraphGenerator.normalize_path` (script.py),
    with Python string/path operations (`str.split`, `os.path.splitext`,
    `os.path.join` in POSIX mode) modelled character-by-character;
  * the graph pipeline (`addMetadataToGraph`, `addLinksToGraph`, `exportGraph`)
    embeds the `KnowledgeGraphGenerator` state, with the networkx `DiGraph`
    modelled as an insertion-ordered node list plus an edge store holding at
    most one edge per ordered pair (attribute overwrite on re-add);
  * `getRelativePath` embeds `get_relative_path` (main.py) on resolved paths
    viewed as segment lists;
  * `scanOutput` / `scanMessage` embed the output behaviour of
    `scan_directory` (main.py) on the list of discovered records.

File-system walking, HTML parsing and text encoding are external collaborators
of the scripts; they enter the model as parameters (lists of discovered
records, per-page anchor lists).
-/

/-- Boolean prefix test on character lists; models Python `str.startswith`. -/
def isPrefixB : List Char → List Char → Bool
  | [], _ => true
  | _ :: _, [] => false
  | a :: as, b :: bs => a = b && isPrefixB as bs

/-- Split a character list on a separator character; models Python
`str.split(sep)` (in particular the empty string splits into one empty part). -/
def splitChar (sep : Char) : List Char → List (List Char)
  | [] => [[]]
  | c :: cs =>
    if c = sep then [] :: splitChar sep cs
    else
      match splitChar sep cs with
      | [] => [[c]]
      | h :: t => (c :: h) :: t

/-- Index of the last occurrence of a character, if any; models Python
`str.rfind` (with `none` for the -1 result). -/
def lastIdxOf (c : Char) (s : List Char) : Option Nat :=
  (s.foldl (fun st ch => (st.1 + 1, if ch = c then some st.1 else st.2))
    ((0, none) : Nat × Option Nat)).2

/-- Models Python `href.split('#')[0]`: the part before the first `#`. -/
def stripFragment (s : List Char) : List Char :=
  s.takeWhile (fun c => c ≠ '#')

/-- Models `os.path.splitext(p)[0]` (POSIX): drop the extension, where the
extension starts at the last dot of the final path component, unless every
character of the component before that dot is itself a dot. -/
def splitextRoot (p : List Char) : List Char :=
  match lastIdxOf '.' p with
  | none => p
  | some dotIdx =>
    let fnStart : Nat :=
      match lastIdxOf '/' p with
      | none => 0
      | some sepIdx => sepIdx + 1
    if fnStart ≤ dotIdx then
      if ((p.drop fnStart).take (dotIdx - fnStart)).all (fun c => c = '.') then p
      else p.take dotIdx
    else p

/-- Models `os.path.join(d, p)` for POSIX paths (two arguments). -/
def osJoin (d p : List Char) : List Char :=
  if isPrefixB ['/'] p then p
  else if d = [] ∨ d.getLast? = some '/' then d ++ p
  else d ++ '/' :: p

/-- Models the `while parts and parts[0] == '..': pop` loop of
`normalize_path`: the number of leading `..` parts and the remaining parts. -/
def popAscents : List (List Char) → Nat × List (List Char)
  | [] => (0, [])
  | p :: ps =>
    if p = "..".data then
      let r := popAscents ps
      (r.1 + 1, r.2)
    else (0, p :: ps)

/-- Models the rejection test of `normalize_path`:
`href.startswith(('http://', 'https://', 'mailto:', '#', 'javascript:'))`. -/
def rejectedHref (href : List Char) : Bool :=
  isPrefixB "http://".data href ||
  isPrefixB "https://".data href ||
  isPrefixB "mailto:".data href ||
  isPrefixB "#".data href ||
  isPrefixB "javascript:".data href

/-- Resolution stage of `normalize_path` (script.py lines 55-71), applied to
the href once its fragment and extension are stripped: resolve `../` ascents
against `current_dir.split('/')`, a `./` prefix, or a plain relative
reference via `os.path.join`. -/
def resolveStripped (currentDir h : List Char) : Option (List Char) :=
  if isPrefixB "../".data h then
    let pa := popAscents (splitChar '/' h)
    let currentParts := splitChar '/' currentDir
    if pa.1 ≤ currentParts.length then
      some (List.intercalate "/".data
        (currentParts.take (currentParts.length - pa.1) ++ pa.2))
    else none
  else if isPrefixB "./".data h then
    some (osJoin currentDir (h.drop 2))
  else
    some (osJoin currentDir h)

/-- Character-list core of `KnowledgeGraphGenerator.normalize_path` (script.py,
lines 44-75): reject external/anchor/script links, strip the fragment, then
the extension, then resolve. -/
def normalizePathL (currentDir href : List Char) : Option (List Char) :=
  if rejectedHref href then none
  else resolveStripped currentDir (splitextRoot (stripFragment href))

/-- String-level `normalize_path`. -/
def normalizePath (currentDir href : String) : Option String :=
  (normalizePathL currentDir.data href.data).map fun l => ⟨l⟩

/-- String-level POSIX `os.path.join`. -/
def pathJoin (d p : String) : String :=
  ⟨osJoin d.data p.data⟩

example : normalizePath "a/b" "../c" = some "a/c" := by decide
example : normalizePath "a/b" "../../c" = some "c" := by decide
example : normalizePath "a/b" "../../../c" = none := by decide
example : normalizePath "" "../c" = some "c" := by decide
example : normalizePath "" "../../c" = none := by decide
example : normalizePath "x" "page.html#top" = some "x/page" := by decide
example : normalizePath "" "page.html" = some "page" := by decide
example : normalizePath "a/b" "./z.html" = some "a/b/z" := by decide
example : normalizePath "" "../" = some "" := by decide
example : normalizePath "q" "https://example.com" = none := by decide
example : normalizePath "q" "#section" = none := by decide
example : ∀ cd : String, normalizePath cd "page.html#top" = some (pathJoin cd "page") :=
  fun _ => rfl

/-- The per-page information kept in `nodes_info` (script.py lines 104-107). -/
structure PageInfo where
  relative_dir : String
  filename : String
deriving DecidableEq

/-- Models `KnowledgeGraphGenerator.get_node_id` (script.py lines 38-42):
`relative_dir + "/" + filename` when `relative_dir` is nonempty (truthy),
else just `filename`. -/
def getNodeId (relativeDir filename : String) : String :=
  if relativeDir ≠ "" then relativeDir ++ "/" ++ filename else filename

/-- State of a `KnowledgeGraphGenerator`: the `nodes_info` dict is an
insertion-ordered association list with in-place overwrite, the networkx
`DiGraph` is an insertion-ordered node list plus an edge store keyed by the
ordered (source, target) pair. -/
structure KGState where
  nodesInfo : List (String × PageInfo)
  graphNodes : List String
  graphEdges : List ((String × String) × String)
deriving DecidableEq

/-- The freshly constructed generator (`__init__`). -/
def initKG : KGState := ⟨[], [], []⟩

/-- Insertion-ordered dict update: overwrite in place if the key is present,
append otherwise (Python dict assignment). -/
def dictInsert (k : String) (v : PageInfo) : List (String × PageInfo) → List (String × PageInfo)
  | [] => [(k, v)]
  | (k₀, v₀) :: rest =>
    if k₀ = k then (k, v) :: rest else (k₀, v₀) :: dictInsert k v rest

/-- Models `DiGraph.add_node`: a no-op when the node is already present,
otherwise appended in insertion order. -/
def addNode (n : String) (ns : List String) : List String :=
  if n ∈ ns then ns else ns ++ [n]

/-- Edge-store update of `DiGraph.add_edge`: at most one edge per ordered
(source, target) pair, a re-add overwriting the `relationship` attribute in
place. -/
def edgeInsert (k : String × String) (rel : String) :
    List ((String × String) × String) → List ((String × String) × String)
  | [] => [(k, rel)]
  | (k₀, r₀) :: rest =>
    if k₀ = k then (k, rel) :: rest else (k₀, r₀) :: edgeInsert k rel rest

/-- Models `DiGraph.add_edge u v relationship=rel`: both endpoints are added
as nodes when absent, then the edge store is updated. -/
def addEdge (u v rel : String) (st : KGState) : KGState :=
  { st with
    graphNodes := addNode v (addNode u st.graphNodes)
    graphEdges := edgeInsert (u, v) rel st.graphEdges }

/-- One loop iteration of `add_metadata_to_graph` (script.py lines 102-108):
compute the node id from the row, record it in `nodes_info`, add the node. -/
def addRecord (st : KGState) (r : PageInfo) : KGState :=
  let nid := getNodeId r.relative_dir r.filename
  { st with
    nodesInfo := dictInsert nid r st.nodesInfo
    graphNodes := addNode nid st.graphNodes }

/-- Models `add_metadata_to_graph` (script.py lines 98-108) on the list of CSV
rows (CSV reading itself is an external collaborator). -/
def addMetadataToGraph (st : KGState) (rows : List PageInfo) : KGState :=
  rows.foldl addRecord st

/-- Models the body of `extract_links_from_html` after HTML parsing
(script.py lines 85-91): each raw (href, text) anchor pair is normalized
against `current_dir` and kept only when the result is truthy (a nonempty
string); the label is `link_text or ""`, the identity on strings. -/
def resolveLinks (currentDir : String) (anchors : List (String × String)) :
    List (String × String) :=
  anchors.filterMap fun a =>
    match normalizePath currentDir a.1 with
    | none => none
    | some p => if p = "" then none else some (p, a.2)

/-- Models `add_links_to_graph` (script.py lines 110-124). The file lookup
and HTML parse are external: `anchors info` is the list of raw (href, text)
anchor pairs extracted from the page stored for `info` (empty when neither
`.html` nor `.htm` exists or parsing fails). For each entry of `nodes_info`
in order, each resolved link whose target is a key of `nodes_info` becomes a
directed edge. -/
def addLinksToGraph (st : KGState) (anchors : PageInfo → List (String × String)) : KGState :=
  st.nodesInfo.foldl
    (fun acc e =>
      (resolveLinks e.2.relative_dir (anchors e.2)).foldl
        (fun acc₂ l =>
          if (st.nodesInfo.lookup l.1).isSome then addEdge e.1 l.1 l.2 acc₂
          else acc₂)
        acc)
    st

/-- The serialized graph of `export_graph` (script.py lines 126-141): the
`nodes` list (each entry an `{id}` object) and the `edges` list (each entry a
`{source, target, relationship}` object). -/
structure GraphExport where
  nodes : List String
  edges : List ((String × String) × String)
deriving DecidableEq

/-- Models `export_graph`: serialize the current node and edge sets. -/
def exportGraph (st : KGState) : GraphExport :=
  ⟨st.graphNodes, st.graphEdges⟩

/-- Models `build_knowledge_graph` (script.py lines 143-153) from the CSV
rows and the per-page anchor lists: load metadata, add links, export. -/
def runGraph (rows : List PageInfo) (anchors : PageInfo → List (String × String)) :
    GraphExport :=
  exportGraph (addLinksToGraph (addMetadataToGraph initKG rows) anchors)

/-- Join path segments with `/`; models `str()` of a POSIX pure path given by
its parts (and `'/'.join`). -/
def joinSegs (segs : List String) : String :=
  String.intercalate "/" segs

/-- Models `Path(file).relative_to(Path(root))` on resolved paths viewed as
segment lists: the remaining segments when `root` is a leading prefix of
`file`, and `none` (the `ValueError`) otherwise. -/
def relativeTo : List String → List String → Option (List String)
  | [], fs => some fs
  | _ :: _, [] => none
  | r :: rs, f :: fs => if r = f then relativeTo rs fs else none

/-- Models `get_relative_path` (main.py lines 31-46) on resolved paths viewed
as segment lists: empty string when the relative path has exactly one part
(file directly in the root), the parent directory of the relative path
otherwise, and empty string when `relative_to` raises (file not under root).
The `file = root` case gives the zero-part relative path `.`, whose parent
prints as `.`. -/
def getRelativePath (root file : List String) : String :=
  match relativeTo root file with
  | none => ""
  | some [] => "."
  | some [_] => ""
  | some rel => joinSegs rel.dropLast

/-- One record of the tabular export written by `scan_directory`
(main.py lines 118-125). -/
structure PageRecord where
  relative_dir : String
  filename : String
  keywords : String
  description : String
  module : String
  title : String
deriving DecidableEq

/-- Models csv QUOTE_ALL field quoting: the field wrapped in double quotes,
inner double quotes doubled. -/
def csvEscape : List Char → List Char
  | [] => []
  | c :: cs => if c = '"' then '"' :: '"' :: csvEscape cs else c :: csvEscape cs

/-- A fully quoted CSV field. -/
def csvField (s : String) : String :=
  ⟨'"' :: (csvEscape s.data ++ ['"'])⟩

/-- One CSV line with delimiter `;`, all fields quoted, terminated by the csv
module default `\r\n`. -/
def csvLine (fields : List String) : String :=
  String.intercalate ";" (fields.map csvField) ++ "\r\n"

/-- The fixed header row written by `writer.writeheader()`
(main.py lines 130-137). -/
def csvHeader : String :=
  csvLine ["relative_dir", "filename", "keywords", "description", "module", "title"]

/-- The CSV row of one record (`writer.writerows`). -/
def recordLine (r : PageRecord) : String :=
  csvLine [r.relative_dir, r.filename, r.keywords, r.description, r.module, r.title]

/-- Models the output-file behaviour of `scan_directory` (main.py lines
127-141) on the list of discovered records: no file at all when the list is
empty, otherwise the header followed by one quoted row per record. -/
def scanOutput (records : List PageRecord) : Option String :=
  if records.isEmpty then none
  else some (csvHeader ++ String.join (records.map recordLine))

/-- Models the message printed by `scan_directory`: the not-found message in
the empty case, the count message otherwise. -/
def scanMessage (records : List PageRecord) : String :=
  if records.isEmpty then "Aucun fichier HTML trouvé."
  else "Scan terminé. " ++ toString records.length ++ " fichiers HTML traités."

example : getRelativePath ["r"] ["r", "x"] = "" := by decide
example : getRelativePath ["r"] ["r", "a", "b", "x"] = "a/b" := by decide
example : getRelativePath ["r"] ["q", "x"] = "" := by decide
example : scanOutput [] = none := by decide

/-- The ascent rule as the specification words it, over the already stripped
href (a refinement reference definition): count the leading `../` ascent
segments, split `current_dir` into path segments, and when `current_dir` has
at least `up_count` segments the result joins (`current_dir` segments minus
the last `up_count`) with the remaining href segments; otherwise the link is
not resolvable. -/
def specAscentResolve (currentDir strippedHref : String) : Option String :=
  let hrefSegs := splitChar '/' strippedHref.data
  let upCount := (hrefSegs.takeWhile fun p => p = "..".data).length
  let remaining := hrefSegs.dropWhile fun p => p = "..".data
  let dirSegs := splitChar '/' currentDir.data
  if upCount ≤ dirSegs.length then
    some ⟨List.intercalate "/".data (dirSegs.take (dirSegs.length - upCount) ++ remaining)⟩
  else none

theorem popAscents_eq (l : List (List Char)) :
    popAscents l =
      ((l.takeWhile fun p => p = "..".data).length, l.dropWhile fun p => p = "..".data) := by
  induction l with
  | nil => rfl
  | cons p ps ih =>
    by_cases h : p = "..".data
    · simp [popAscents, h, List.takeWhile_cons, List.dropWhile_cons, ih]
    · simp [popAscents, h, List.takeWhile_cons, List.dropWhile_cons]

/-- C1 (amended). Ascent resolution with path segments given by
`current_dir.split('/')`: for every `current_dir` and every href that is not
rejected and whose stripped form begins with `../`, `normalize_path` agrees
with the spec's ascent rule where the number of available segments is the
length of `current_dir.split('/')` — which is 1, not 0, for the empty
`current_dir` (one empty segment). Hence for `current_dir = "a/b"`: `../c`
resolves to `a/c`, `../../c` to `c`, and `../../../c` is not resolvable; and
for empty `current_dir` a single-ascent href such as `../c` resolves (to
`c`) while `../../c` is not resolvable. -/
theorem ascent_resolution_matches_spec_rule :
    (∀ cd href : String, rejectedHref href.data = false →
        isPrefixB "../".data (splitextRoot (stripFragment href.data)) = true →
        normalizePath cd href =
          specAscentResolve cd ⟨splitextRoot (stripFragment href.data)⟩) ∧
      normalizePath "a/b" "../c" = some "a/c" ∧
      normalizePath "a/b" "../../c" = some "c" ∧
      normalizePath "a/b" "../../../c" = none ∧
      normalizePath "" "../c" = some "c" ∧
      normalizePath "" "../../c" = none := by
  refine ⟨?_, by decide, by decide, by decide, by decide, by decide⟩
  intro cd href h1 h2
  unfold normalizePath normalizePathL resolveStripped specAscentResolve
  rw [h1]
  simp only [Bool.false_eq_true, if_false, h2, if_true, popAscents_eq]
  split
  · rfl
  · rfl

/-- C1 witness: the amended ascent rule applied at `current_dir = "a/b"`,
`href = "../c"`. -/
theorem ascent_resolution_matches_spec_rule_witness :
    rejectedHref "../c".data = false ∧
      normalizePath "a/b" "../c" =
        specAscentResolve "a/b" ⟨splitextRoot (stripFragment "../c".data)⟩ :=
  ⟨by decide, ascent_resolution_matches_spec_rule.1 "a/b" "../c" (by decide) (by decide)⟩

/-- C1 counterexample: for empty `current_dir` the href `../c` IS resolvable
(to `c`), because `"".split('/')` is `[""]` with one segment, contradicting
the claim that any `../`-prefixed href is not resolvable there. -/
theorem empty_dir_single_ascent_resolves :
    normalizePath "" "../c" = some "c" := by decide

theorem foldl_pres {α β : Type _} {P : β → Prop} {f : β → α → β}
    (hf : ∀ b a, P b → P (f b a)) :
    ∀ (l : List α) (b : β), P b → P (l.foldl f b) := by
  intro l
  induction l with
  | nil => intro b h; exact h
  | cons a t ih => intro b h; exact ih (f b a) (hf b a h)

theorem mem_addNode_self (n : String) (ns : List String) : n ∈ addNode n ns := by
  unfold addNode
  split
  · assumption
  · simp

theorem mem_addNode_of_mem {x : String} {ns : List String} (n : String) (h : x ∈ ns) :
    x ∈ addNode n ns := by
  unfold addNode
  split
  · exact h
  · simp [h]

theorem addNode_idem (n : String) (ns : List String) :
    addNode n (addNode n ns) = addNode n ns := by
  by_cases h : n ∈ ns
  · simp [addNode, h]
  · simp [addNode, h]

theorem mem_edgeInsert {e : (String × String) × String} {k : String × String} {rel : String} :
    ∀ {l : List ((String × String) × String)},
      e ∈ edgeInsert k rel l → e = (k, rel) ∨ e ∈ l := by
  intro l
  induction l with
  | nil => simp [edgeInsert]
  | cons e₀ rest ih =>
    obtain ⟨k₀, r₀⟩ := e₀
    simp only [edgeInsert]
    split
    · intro h
      rcases List.mem_cons.mp h with h | h
      · exact Or.inl h
      · exact Or.inr (List.mem_cons_of_mem _ h)
    · intro h
      rcases List.mem_cons.mp h with h | h
      · exact Or.inr (h ▸ List.mem_cons_self _ _)
      · rcases ih h with h | h
        · exact Or.inl h
        · exact Or.inr (List.mem_cons_of_mem _ h)

theorem graphEdges_meta (rows : List PageInfo) :
    ∀ st : KGState, (addMetadataToGraph st rows).graphEdges = st.graphEdges := by
  induction rows with
  | nil => intro st; rfl
  | cons r t ih =>
    intro st
    show (addMetadataToGraph (addRecord st r) t).graphEdges = st.graphEdges
    rw [ih]
    rfl

theorem nodesInfo_meta_keys (rows : List PageInfo) :
    ∀ st : KGState,
      (addMetadataToGraph st rows).graphNodes =
        rows.foldl
          (fun ns r => addNode (getNodeId r.relative_dir r.filename) ns) st.graphNodes := by
  induction rows with
  | nil => intro st; rfl
  | cons r t ih =>
    intro st
    show (addMetadataToGraph (addRecord st r) t).graphNodes = _
    rw [ih]
    rfl

/-- Edge well-formedness of an accumulator state, relative to the `nodes_info`
dict of a base state: every stored edge has both endpoints among the graph
nodes and a target registered in `nodes_info`. -/
def edgesOk (base acc : KGState) : Prop :=
  ∀ e ∈ acc.graphEdges,
    e.1.1 ∈ acc.graphNodes ∧ e.1.2 ∈ acc.graphNodes ∧
      (base.nodesInfo.lookup e.1.2).isSome = true

theorem edgesOk_addEdge {base acc : KGState} {u v rel : String}
    (hv : (base.nodesInfo.lookup v).isSome = true) (h : edgesOk base acc) :
    edgesOk base (addEdge u v rel acc) := by
  intro e he
  rcases mem_edgeInsert he with h₁ | h₁
  · subst h₁
    exact ⟨mem_addNode_of_mem v (mem_addNode_self u _), mem_addNode_self v _, hv⟩
  · obtain ⟨hn₁, hn₂, hl⟩ := h e h₁
    exact ⟨mem_addNode_of_mem _ (mem_addNode_of_mem _ hn₁),
      mem_addNode_of_mem _ (mem_addNode_of_mem _ hn₂), hl⟩

theorem edgesOk_addLinks (st : KGState) (anchors : PageInfo → List (String × String))
    (h : edgesOk st st) : edgesOk st (addLinksToGraph st anchors) := by
  unfold addLinksToGraph
  apply foldl_pres (P := edgesOk st) _ st.nodesInfo st h
  intro acc entry hacc
  apply foldl_pres (P := edgesOk st) _ _ acc hacc
  intro acc₂ l h₂
  by_cases hk : (st.nodesInfo.lookup l.1).isSome = true
  · rw [if_pos hk]
    exact edgesOk_addEdge hk h₂
  · rw [if_neg hk]
    exact h₂

/-- C4: after loading metadata and links, every edge of the exported graph has
a source and a target that are nodes of the graph, and its target is
registered in `nodes_info` (a link whose resolved target is not a known node
contributes no edge; the pipeline is total, so no error is raised). -/
theorem edge_endpoints_are_registered :
    ∀ (rows : List PageInfo) (anchors : PageInfo → List (String × String))
      (e : (String × String) × String),
      e ∈ (runGraph rows anchors).edges →
        e.1.1 ∈ (runGraph rows anchors).nodes ∧
        e.1.2 ∈ (runGraph rows anchors).nodes ∧
        ((addMetadataToGraph initKG rows).nodesInfo.lookup e.1.2).isSome = true := by
  intro rows anchors
  have h0 : edgesOk (addMetadataToGraph initKG rows) (addMetadataToGraph initKG rows) := by
    intro e he
    rw [graphEdges_meta] at he
    exact absurd he (List.not_mem_nil e)
  exact edgesOk_addLinks (addMetadataToGraph initKG rows) anchors h0

/-- C4 witness: in the two-page scenario (`index` linking to `sub/child`),
the edge `(index, sub/child)` has both endpoints among the exported nodes and
a registered target. -/
theorem edge_endpoints_are_registered_witness :
    "index" ∈ (runGraph [⟨"", "index"⟩, ⟨"sub", "child"⟩]
        (fun i => if i.filename = "index" then [("sub/child.html", "Go")] else [])).nodes ∧
      "sub/child" ∈ (runGraph [⟨"", "index"⟩, ⟨"sub", "child"⟩]
        (fun i => if i.filename = "index" then [("sub/child.html", "Go")] else [])).nodes :=
  have h := edge_endpoints_are_registered [⟨"", "index"⟩, ⟨"sub", "child"⟩]
    (fun i => if i.filename = "index" then [("sub/child.html", "Go")] else [])
    (("index", "sub/child"), "Go") (by decide)
  ⟨h.1, h.2.1⟩

theorem edgeKeys_edgeInsert (k : String × String) (rel : String) :
    ∀ l : List ((String × String) × String),
      (edgeInsert k rel l).map Prod.fst =
        if k ∈ l.map Prod.fst then l.map Prod.fst else l.map Prod.fst ++ [k] := by
  intro l
  induction l with
  | nil => simp [edgeInsert]
  | cons e₀ rest ih =>
    obtain ⟨k₀, r₀⟩ := e₀
    by_cases h : k₀ = k
    · subst h
      simp [edgeInsert]
    · have hne : ¬k = k₀ := fun hh => h hh.symm
      simp only [edgeInsert, if_neg h, List.map_cons, ih]
      by_cases hm : k ∈ rest.map Prod.fst
      · rw [if_pos hm, if_pos (List.mem_cons_of_mem _ hm)]
      · rw [if_neg hm, if_neg (by simp [List.mem_cons, hne, hm]), List.cons_append]

theorem nodup_edgeInsert {l : List ((String × String) × String)}
    (k : String × String) (rel : String) (h : (l.map Prod.fst).Nodup) :
    ((edgeInsert k rel l).map Prod.fst).Nodup := by
  rw [edgeKeys_edgeInsert]
  split
  · exact h
  · next hk => simpa using List.Nodup.append h (List.nodup_singleton k) (by simpa using hk)

/-- Key uniqueness of the edge store: the (source, target) keys are pairwise
distinct. -/
def edgeKeysNodup (st : KGState) : Prop :=
  (st.graphEdges.map Prod.fst).Nodup

theorem edgeKeysNodup_addLinks (st : KGState) (anchors : PageInfo → List (String × String))
    (h : edgeKeysNodup st) : edgeKeysNodup (addLinksToGraph st anchors) := by
  unfold addLinksToGraph
  apply foldl_pres (P := edgeKeysNodup) _ st.nodesInfo st h
  intro acc entry hacc
  apply foldl_pres (P := edgeKeysNodup) _ _ acc hacc
  intro acc₂ l h₂
  by_cases hk : (st.nodesInfo.lookup l.1).isSome = true
  · rw [if_pos hk]
    exact nodup_edgeInsert _ _ h₂
  · rw [if_neg hk]
    exact h₂

/-- C5: the edge store holds at most one edge per ordered (source, target)
pair in any run, and a page linking twice to the same target with different
anchor texts yields exactly one exported edge carrying the later label. -/
theorem one_edge_per_pair_last_label_wins :
    (∀ (rows : List PageInfo) (anchors : PageInfo → List (String × String)),
        ((runGraph rows anchors).edges.map Prod.fst).Nodup) ∧
      runGraph [⟨"", "a"⟩, ⟨"", "b"⟩]
          (fun i => if i.filename = "a" then [("b.html", "first"), ("b.html", "second")]
            else []) =
        ⟨["a", "b"], [(("a", "b"), "second")]⟩ := by
  constructor
  · intro rows anchors
    have h0 : edgeKeysNodup (addMetadataToGraph initKG rows) := by
      unfold edgeKeysNodup
      rw [graphEdges_meta]
      exact List.nodup_nil
    exact edgeKeysNodup_addLinks (addMetadataToGraph initKG rows) anchors h0
  · decide

theorem mem_graphNodes_addRecord (st : KGState) (r : PageInfo) :
    getNodeId r.relative_dir r.filename ∈ (addRecord st r).graphNodes :=
  mem_addNode_self _ _

theorem mem_graphNodes_meta_mono {x : String} (rows : List PageInfo) :
    ∀ st : KGState, x ∈ st.graphNodes → x ∈ (addMetadataToGraph st rows).graphNodes := by
  intro st h
  refine foldl_pres (P := fun s => x ∈ s.graphNodes) ?_ rows st h
  intro s r hs
  show x ∈ (addRecord s r).graphNodes
  exact mem_addNode_of_mem _ hs

theorem mem_graphNodes_addLinks_mono {x : String} (st : KGState)
    (anchors : PageInfo → List (String × String)) (h : x ∈ st.graphNodes) :
    x ∈ (addLinksToGraph st anchors).graphNodes := by
  unfold addLinksToGraph
  apply foldl_pres (P := fun s => x ∈ s.graphNodes) _ st.nodesInfo st h
  intro acc entry hacc
  apply foldl_pres (P := fun s => x ∈ s.graphNodes) _ _ acc hacc
  intro acc₂ l h₂
  by_cases hk : (st.nodesInfo.lookup l.1).isSome = true
  · rw [if_pos hk]
    exact mem_addNode_of_mem _ (mem_addNode_of_mem _ h₂)
  · rw [if_neg hk]
    exact h₂

theorem mem_graphNodes_meta {r : PageInfo} (rows : List PageInfo) (hr : r ∈ rows) :
    ∀ st : KGState,
      getNodeId r.relative_dir r.filename ∈ (addMetadataToGraph st rows).graphNodes := by
  induction rows with
  | nil => cases hr
  | cons r₀ t ih =>
    intro st
    rcases List.mem_cons.mp hr with h | h
    · subst h
      exact mem_graphNodes_meta_mono t _ (mem_graphNodes_addRecord st r)
    · exact ih h (addRecord st r₀)

/-- C6: every page identifier computed from a record of the tabular export is
a node of the exported graph. -/
theorem csv_identifier_round_trip :
    ∀ (rows : List PageInfo) (anchors : PageInfo → List (String × String)) (r : PageInfo),
      r ∈ rows →
      getNodeId r.relative_dir r.filename ∈ (runGraph rows anchors).nodes := by
  intro rows anchors r hr
  exact mem_graphNodes_addLinks_mono _ anchors (mem_graphNodes_meta rows hr initKG)

/-- C6 witness: the identifier of the record `(sub, child)` appears among the
exported nodes. -/
theorem csv_identifier_round_trip_witness :
    getNodeId "sub" "child" ∈
      (runGraph [⟨"", "index"⟩, ⟨"sub", "child"⟩] (fun _ => [])).nodes :=
  csv_identifier_round_trip [⟨"", "index"⟩, ⟨"sub", "child"⟩] (fun _ => [])
    ⟨"sub", "child"⟩ (by decide)

/-- C7: two records with the same page identifier register the same node set
as one: duplicate identifiers in the tabular export collapse to a single
node, whatever the surrounding records are. -/
theorem duplicate_identifier_collapses :
    ∀ (pre post : List PageInfo) (r₁ r₂ : PageInfo),
      getNodeId r₁.relative_dir r₁.filename = getNodeId r₂.relative_dir r₂.filename →
      (addMetadataToGraph initKG (pre ++ r₁ :: r₂ :: post)).graphNodes =
        (addMetadataToGraph initKG (pre ++ r₁ :: post)).graphNodes := by
  intro pre post r₁ r₂ h
  rw [nodesInfo_meta_keys, nodesInfo_meta_keys, List.foldl_append, List.foldl_append]
  simp only [List.foldl_cons]
  rw [← h, addNode_idem]

/-- C7 witness: the record `(sub, page)` registered twice yields the same
node set as registered once. -/
theorem duplicate_identifier_collapses_witness :
    (addMetadataToGraph initKG [⟨"sub", "page"⟩, ⟨"sub", "page"⟩]).graphNodes =
      (addMetadataToGraph initKG [⟨"sub", "page"⟩]).graphNodes :=
  duplicate_identifier_collapses [] [] ⟨"sub", "page"⟩ ⟨"sub", "page"⟩ rfl

/-- C2: `normalize_path` strips the `#` fragment and then the extension
before resolving (for every non-rejected href the result is the resolution
of the stripped href), so for every `current_dir` the hrefs `page.html#top`
and `page.html` resolve to the same identifier, `current_dir` joined with
`page`. -/
theorem fragment_then_extension_then_resolve :
    (∀ cd href : String, rejectedHref href.data = false →
        normalizePath cd href =
          (resolveStripped cd.data (splitextRoot (stripFragment href.data))).map
            fun l => ⟨l⟩) ∧
      ∀ cd : String,
        normalizePath cd "page.html#top" = normalizePath cd "page.html" ∧
        normalizePath cd "page.html" = some (pathJoin cd "page") := by
  refine ⟨?_, fun _ => ⟨rfl, rfl⟩⟩
  intro cd href h1
  unfold normalizePath normalizePathL
  rw [h1]
  rfl

/-- C2 witness: the stripping pipeline applied at `current_dir = "x"`,
`href = "page.html#top"`. -/
theorem fragment_then_extension_then_resolve_witness :
    rejectedHref "page.html#top".data = false ∧
      normalizePath "x" "page.html#top" =
        (resolveStripped "x".data (splitextRoot (stripFragment "page.html#top".data))).map
          fun l => ⟨l⟩ :=
  ⟨by decide, fragment_then_extension_then_resolve.1 "x" "page.html#top" (by decide)⟩

/-- C3: a href beginning with an external protocol (`http://`, `https://`),
a mail link, a pure in-page anchor or a script pseudo-protocol is never
resolved: `normalize_path` returns not-resolvable, and the link extractor
keeps no (identifier, label) pair for it, so no edge can arise from it. -/
theorem external_and_anchor_hrefs_rejected :
    ∀ cd href text : String,
      (isPrefixB "http://".data href.data = true ∨
        isPrefixB "https://".data href.data = true ∨
        isPrefixB "mailto:".data href.data = true ∨
        isPrefixB "#".data href.data = true ∨
        isPrefixB "javascript:".data href.data = true) →
      normalizePath cd href = none ∧ resolveLinks cd [(href, text)] = [] := by
  intro cd href text h
  have hr : rejectedHref href.data = true := by
    unfold rejectedHref
    rcases h with h | h | h | h | h <;> simp [h]
  have h1 : normalizePath cd href = none := by
    unfold normalizePath normalizePathL
    rw [hr]
    rfl
  refine ⟨h1, ?_⟩
  simp [resolveLinks, h1]

/-- C3 witness: the external href `https://example.com` and the pure anchor
case, at `current_dir = "q"`. -/
theorem external_and_anchor_hrefs_rejected_witness :
    normalizePath "q" "https://example.com" = none ∧
      resolveLinks "q" [("https://example.com", "ext")] = [] :=
  external_and_anchor_hrefs_rejected "q" "https://example.com" "ext"
    (Or.inr (Or.inl (by decide)))

theorem relativeTo_append (root rest : List String) :
    relativeTo root (root ++ rest) = some rest := by
  induction root with
  | nil => rfl
  | cons r rs ih => simp [relativeTo, ih]

/-- C8: a file directly in the root has empty relative directory, and a file
deeper in the tree has as relative directory the path of its parent
directory relative to the root; hence every root-level record carries
`relative_dir = ""`. -/
theorem relative_dir_of_scanned_file :
    (∀ (root : List String) (name : String), getRelativePath root (root ++ [name]) = "") ∧
      ∀ (root rel : List String), 2 ≤ rel.length →
        getRelativePath root (root ++ rel) = joinSegs rel.dropLast := by
  constructor
  · intro root name
    unfold getRelativePath
    rw [relativeTo_append]
  · intro root rel h
    match rel, h with
    | a :: b :: t, _ =>
      unfold getRelativePath
      rw [relativeTo_append]

/-- C8 witness: a file three levels under the root gets its parent directory
as relative directory. -/
theorem relative_dir_of_scanned_file_witness :
    getRelativePath ["r"] (["r"] ++ ["a", "b", "x"]) = joinSegs ["a", "b", "x"].dropLast :=
  relative_dir_of_scanned_file.2 ["r"] ["a", "b", "x"] (by decide)

theorem relativeTo_eq_none {root file : List String} (h : ¬root <+: file) :
    relativeTo root file = none := by
  induction root generalizing file with
  | nil => exact absurd (List.nil_prefix) h
  | cons r rs ih =>
    match file with
    | [] => rfl
    | f :: fs =>
      by_cases hrf : r = f
      · subst hrf
        have : ¬rs <+: fs := fun hp => h (List.cons_prefix_cons.mpr ⟨rfl, hp⟩)
        simpa [relativeTo] using ih this
      · simp [relativeTo, hrf]

/-- C10: a file that is not under the root (where the relative-path
computation raises `ValueError`) is silently given the empty relative
directory — the same value as any genuine root-level file, so the two can
collide. -/
theorem outside_root_classified_as_root_level :
    ∀ root file : List String, ¬root <+: file →
      getRelativePath root file = "" ∧
        ∀ name : String, getRelativePath root file = getRelativePath root (root ++ [name]) := by
  intro root file h
  have h0 : getRelativePath root file = "" := by
    unfold getRelativePath
    rw [relativeTo_eq_none h]
  refine ⟨h0, fun name => ?_⟩
  rw [h0]
  unfold getRelativePath
  rw [relativeTo_append]

/-- C10 witness: the file `b/x` is not under the root `a` and is classified
with empty relative directory, colliding with the root-level file `a/x`. -/
theorem outside_root_classified_as_root_level_witness :
    getRelativePath ["a"] ["b", "x"] = "" ∧
      ∀ name : String, getRelativePath ["a"] ["b", "x"] = getRelativePath ["a"] (["a"] ++ [name]) :=
  outside_root_classified_as_root_level ["a"] ["b", "x"] (by decide)

/-- C9 counterexample: with zero records no file is written, but the printed
report is the fixed no-files notice, which contains no digit at all and so
does not report a count. -/
theorem empty_scan_reports_no_count :
    scanOutput [] = none ∧
      scanMessage [] = "Aucun fichier HTML trouvé." ∧
      ("Aucun fichier HTML trouvé.".data.all fun c => !c.isDigit) = true := by
  exact ⟨rfl, rfl, by decide⟩

/-- C9 (amended): with zero records `scan_directory` writes no output file
and reports a fixed no-files message (not a count) instead of failing; with
at least one record it writes the export made of the fixed fully quoted
header row followed by one fully quoted row per record, and reports the
count. -/
theorem scan_output_empty_and_nonempty :
    (scanOutput [] = none ∧ scanMessage [] = "Aucun fichier HTML trouvé.") ∧
      csvHeader =
        "\"relative_dir\";\"filename\";\"keywords\";\"description\";\"module\";\"title\"\r\n" ∧
      ∀ (r : PageRecord) (rest : List PageRecord),
        scanOutput (r :: rest) =
          some (csvHeader ++ String.join ((r :: rest).map recordLine)) ∧
        scanMessage (r :: rest) =
          "Scan terminé. " ++ toString (r :: rest).length ++ " fichiers HTML traités." := by
  exact ⟨⟨rfl, rfl⟩, by decide, fun r rest => ⟨rfl, rfl⟩⟩
